import Mathlib

/-!
Shallow embedding of the metricsd collection pipeline (Go sources:
the plugin collector / config package, `internal/collector/http.go`,
`internal/orchestrator/orchestrator.go`).

Conventions of the embedding:
* Go `map[string]string` values are modelled as association lists
  (`Labels`) with a replace-or-append insertion (`setL`), matching Go
  map insertion up to iteration order; lookups use `getL`.
* `time.Time` and `time.Duration` are modelled as `Int` nanoseconds
  (`time.Second = 1000000000`).
* `float64` values are modelled as exact rationals `ℚ`;
  `strconv.ParseFloat` is modelled on the plain decimal fragment of its
  grammar (optional sign, decimal digits with optional fraction,
  optional decimal exponent). Hex floats, `Inf`/`NaN` spellings, digit
  underscores and float64 range overflow are not modelled; none of the
  inputs relevant here exercise them.
* A compiled `*regexp.Regexp` (an external library object) is modelled
  abstractly as its `FindStringSubmatch` behaviour (`GoRegexp`); the two
  fixed regexps hard-coded in `http.go` and the fixed metric-name
  grammar are translated into equivalent executable matchers.
* `strings.ToLower` / `strings.TrimSpace` are modelled on the ASCII
  fragment of Unicode (all strings the checks compare against are
  ASCII).
-/

namespace Metricsd

/-! ## Labels: the Go `map[string]string` model -/

abbrev Labels := List (String × String)

/-- Go map insertion `m[k] = v`: replace the binding of `k` if present,
otherwise append it. -/
def setL : Labels → String → String → Labels
  | [], k, v => [(k, v)]
  | (k', v') :: rest, k, v =>
      if k' = k then (k, v) :: rest else (k', v') :: setL rest k v

/-- Go map lookup `m[k]`. -/
def getL : Labels → String → Option String
  | [], _ => none
  | (k', v') :: rest, k => if k' = k then some v' else getL rest k

/-! ## Time, values, metrics -/

/-- `time.Second` in nanoseconds. -/
def goSecond : Int := 1000000000

/-- A single observation (`collector.Metric`): name, labels, float64
value (modelled as an exact rational) and kind string. -/
structure Metric where
  name : String
  labels : Labels
  value : ℚ
  type : String
  deriving Repr, DecidableEq

/-! ## Character classes and small string helpers -/

def isDigitChar (c : Char) : Bool := '0' ≤ c ∧ c ≤ '9'

def isAsciiAlpha (c : Char) : Bool := ('a' ≤ c ∧ c ≤ 'z') ∨ ('A' ≤ c ∧ c ≤ 'Z')

/-- First-character class of the metric-name grammar `[a-zA-Z_:]`. -/
def isMetricStartChar (c : Char) : Bool := isAsciiAlpha c ∨ c = '_' ∨ c = ':'

/-- Continuation class of the metric-name grammar `[a-zA-Z0-9_:]`. -/
def isMetricChar (c : Char) : Bool := isAsciiAlpha c ∨ isDigitChar c ∨ c = '_' ∨ c = ':'

/-- `regexp.MustCompile("^[a-zA-Z_:][a-zA-Z0-9_:]*$").MatchString`,
translated into the equivalent anchored character-class check. -/
def matchMetricName (s : String) : Bool :=
  match s.toList with
  | [] => false
  | c :: rest => isMetricStartChar c ∧ rest.all isMetricChar

/-- ASCII fragment of `strings.ToLower`. -/
def asciiLower (s : String) : String :=
  String.mk (s.toList.map fun c =>
    if 'A' ≤ c ∧ c ≤ 'Z' then Char.ofNat (c.toNat + 32) else c)

/-- Unix `filepath.Base`: empty path gives ".", trailing slashes are
stripped, everything up to the last slash is dropped, an all-slash path
gives "/". -/
def filepathBase (path : String) : String :=
  if path = "" then "." else
  let cs := path.toList.reverse.dropWhile (· = '/')
  if cs = [] then "/" else
  String.mk (cs.takeWhile (· ≠ '/')).reverse

/-! ## Plugin definitions (the `collector` package of the plugin engine) -/

structure PluginParser where
  mode : String
  regex : String
  deriving Repr, DecidableEq

structure CommandSource where
  command : List String
  deriving Repr, DecidableEq

structure HTTPSource where
  url : String
  deriving Repr, DecidableEq

structure FileSource where
  path : String
  deriving Repr, DecidableEq

/-- `collector.PluginDefinition`. Absent optional JSON fields are the Go
zero values (`0`, empty string, `nil`). -/
structure PluginDefinition where
  name : String
  metric : String
  metricType : String
  intervalSeconds : Int
  labels : Labels
  timeoutSeconds : Int
  parser : PluginParser
  command : Option CommandSource
  http : Option HTTPSource
  file : Option FileSource
  deriving Repr, DecidableEq

/-- `blacklistedCommand`: membership of the lower-cased base name in the
fixed deny-list. -/
def blacklistedCommand (cmd : String) : Bool :=
  let blacklist := ["rm", "sudo", "mv", "cp", "shutdown", "reboot", "halt", "init"]
  blacklist.contains (asciiLower (filepathBase cmd))

/-- `validatePluginDefinition`, translated check for check in source
order (the `sourceCount` counter is expanded into the per-variant checks
followed by the zero/many count checks, in the same evaluation order). -/
def validatePluginDefinition (d : PluginDefinition) : Except String Unit :=
  if d.name = "" then .error "plugin name is required"
  else if d.metric = "" then .error "metric is required"
  else if ¬ matchMetricName d.metric then .error "metric must match regex"
  else if d.metricType ≠ "gauge" ∧ d.metricType ≠ "counter" then
    .error "metric_type must be gauge or counter"
  else if d.intervalSeconds ≤ 0 then .error "interval_seconds must be positive"
  else
    match d.command with
    | some c =>
        match c.command with
        | [] => .error "command source requires command array"
        | c0 :: _ =>
            if blacklistedCommand c0 then .error "command is blacklisted"
            else validateHTTPOn d
    | none => validateHTTPOn d
where
  validateHTTPOn (d : PluginDefinition) : Except String Unit :=
    match d.http with
    | some h => if h.url = "" then .error "http source requires url" else validateFileOn d
    | none => validateFileOn d
  validateFileOn (d : PluginDefinition) : Except String Unit :=
    match d.file with
    | some f => if f.path = "" then .error "file source requires path" else validateCount d
    | none => validateCount d
  sourceCount (d : PluginDefinition) : Nat :=
    (if d.command.isSome then 1 else 0) +
    (if d.http.isSome then 1 else 0) +
    (if d.file.isSome then 1 else 0)
  validateCount (d : PluginDefinition) : Except String Unit :=
    if sourceCount d = 0 then .error "one source must be provided"
    else if sourceCount d > 1 then .error "only one source type is allowed"
    else .ok ()

/-! ## Float parsing (`strconv.ParseFloat`, decimal fragment) -/

def digitsToNat (ds : List Char) : Nat :=
  ds.foldl (fun acc c => acc * 10 + (c.toNat - '0'.toNat)) 0

/-- `strconv.ParseFloat(s, 64)` on the plain decimal fragment of its
grammar: optional sign, decimal digits with optional fraction (at least
one digit overall), optional decimal exponent; the whole string must be
consumed. The result is the exact rational denoted: with mantissa
digits `ip.fp` and decimal exponent `e`, the value
`±(ip ++ fp) · 10^(e - |fp|)`, built with a single `mkRat`. -/
def parseGoFloat (s : String) : Option ℚ :=
  let cs := s.toList
  let signRest : Bool × List Char :=
    match cs with
    | '+' :: rest => (false, rest)
    | '-' :: rest => (true, rest)
    | _ => (false, cs)
  let neg := signRest.1
  let cs1 := signRest.2
  let ip := cs1.takeWhile isDigitChar
  let cs2 := cs1.dropWhile isDigitChar
  let fpRest : List Char × List Char :=
    match cs2 with
    | '.' :: rest => (rest.takeWhile isDigitChar, rest.dropWhile isDigitChar)
    | _ => ([], cs2)
  let fp := fpRest.1
  let cs3 := if cs2.head? = some '.' then fpRest.2 else cs2
  if ip = [] ∧ fp = [] then none
  else
    let num : Int :=
      if neg then -(digitsToNat (ip ++ fp) : Int) else (digitsToNat (ip ++ fp) : Int)
    let mkVal : Int → ℚ := fun e10 =>
      if e10 ≥ 0 then mkRat (num * ((10 ^ e10.toNat : Nat) : Int)) 1
      else mkRat num (10 ^ (-e10).toNat)
    match cs3 with
    | [] => some (mkVal (-(fp.length : Int)))
    | e :: rest =>
        if e = 'e' ∨ e = 'E' then
          let esignRest : Bool × List Char :=
            match rest with
            | '+' :: r => (true, r)
            | '-' :: r => (false, r)
            | _ => (true, rest)
          let ed := esignRest.2.takeWhile isDigitChar
          let rest2 := esignRest.2.dropWhile isDigitChar
          if ed = [] ∨ rest2 ≠ [] then none
          else
            let ev : Int :=
              if esignRest.1 then (digitsToNat ed : Int) else -(digitsToNat ed : Int)
            some (mkVal (ev - (fp.length : Int)))
        else none

/-- ASCII fragment of `strings.TrimSpace`. -/
def isAsciiSpace (c : Char) : Bool :=
  c = ' ' ∨ c = '\t' ∨ c = '\n' ∨ c = '\r' ∨ c = Char.ofNat 11 ∨ c = Char.ofNat 12

def trimAsciiSpace (s : String) : String :=
  String.mk (((s.toList.dropWhile isAsciiSpace).reverse.dropWhile isAsciiSpace).reverse)

/-! ## Compiled regexps and plugin value parsing -/

/-- A compiled `*regexp.Regexp` is an external library object; it is
modelled abstractly by its `FindStringSubmatch` behaviour (`[]` stands
for the `nil` no-match result). -/
structure GoRegexp where
  findStringSubmatch : String → List String

/-- `collector.parsedParser`. The `regex` field is `none` exactly when
the Go field holds a nil pointer. -/
structure ParsedParser where
  mode : String
  regex : Option GoRegexp
  rawRegex : String
  rawMode : String

/-- `normalizeParser`; `compile` stands for `regexp.Compile`. -/
def normalizeParser (compile : String → Except String GoRegexp)
    (p : PluginParser) : Except String ParsedParser :=
  let mode := if p.mode = "" then "number" else p.mode
  if mode = "number" then .ok ⟨"number", none, "", mode⟩
  else if mode = "regex" then
    if p.regex = "" then .error "parser regex mode requires regex"
    else
      match compile p.regex with
      | .error e => .error ("invalid parser regex: " ++ e)
      | .ok re => .ok ⟨"regex", some re, p.regex, mode⟩
  else .error ("unsupported parser mode: " ++ mode)

/-- `parseValue`. In regex mode, Go dereferences `parser.regex`; the
`none` branch corresponds to the nil-pointer panic and is unreachable
for parsers produced by `normalizeParser`. -/
def parseValue (raw : String) (parser : ParsedParser) : Except String ℚ :=
  if parser.mode = "number" then
    match parseGoFloat (trimAsciiSpace raw) with
    | some v => .ok v
    | none => .error "invalid number"
  else if parser.mode = "regex" then
    match parser.regex with
    | none => .error "nil regex dereference"
    | some re =>
        match re.findStringSubmatch raw with
        | _ :: m1 :: _ =>
            match parseGoFloat m1 with
            | some v => .ok v
            | none => .error "capture is not a number"
        | _ => .error "regex did not match any capture group"
  else .error ("unsupported parser mode " ++ parser.rawMode)

/-- Leftmost maximal digit run of a string, or `none`: the match of the
regexp `\d+`. -/
def findDigitRun : List Char → Option String
  | [] => none
  | c :: rest =>
      if isDigitChar c then some (String.mk (c :: rest.takeWhile isDigitChar))
      else findDigitRun rest

/-- `regexp.MustCompile("(\\d+)")`: one capture group equal to the whole
match. -/
def digitsCaptureRegexp : GoRegexp :=
  ⟨fun s => match findDigitRun s.toList with
    | some r => [r, r]
    | none => []⟩

/-- `regexp.MustCompile("\\d+")`: same matches, zero capture groups. -/
def digitsNoCaptureRegexp : GoRegexp :=
  ⟨fun s => match findDigitRun s.toList with
    | some r => [r]
    | none => []⟩

/-! ## Plugin runtimes, reload and collection -/

def defaultPluginTimeout : Int := 10 * goSecond

/-- `collector.pluginRuntime` (`def` is a Lean keyword, so the `def`
field is named `pdef`). -/
structure PluginRuntime where
  pdef : PluginDefinition
  nextRun : Int
  interval : Int
  timeout : Int
  parser : ParsedParser
  source : String
  metricKey : String

/-- `detectSource`. -/
def detectSource (d : PluginDefinition) : String :=
  if d.command.isSome then "command"
  else if d.http.isSome then "http"
  else if d.file.isSome then "file"
  else ""

/-- `buildRuntime`; `compile` stands for `regexp.Compile` and `now` for
the `time.Now()` call. -/
def buildRuntime (compile : String → Except String GoRegexp) (now : Int)
    (d : PluginDefinition) (pfx : String) : Except String PluginRuntime :=
  match validatePluginDefinition d with
  | .error e => .error e
  | .ok _ =>
      match normalizeParser compile d.parser with
      | .error e => .error ("plugin " ++ d.name ++ ": " ++ e)
      | .ok pr =>
          let timeout :=
            if d.timeoutSeconds > 0 then d.timeoutSeconds * goSecond
            else defaultPluginTimeout
          .ok { pdef := d
                nextRun := now
                interval := d.intervalSeconds * goSecond
                timeout := timeout
                parser := pr
                source := detectSource d
                metricKey := pfx ++ d.metric }

/-- `collector.PluginCollector` (the `prefix` field is named `pfx`). -/
structure PluginCollector where
  pfx : String
  plugins : List PluginRuntime
  pluginsDir : String
  lastMod : Int

/-- The filesystem facts `maybeReload` consults: the directory's newest
`.json` modification time (`latestPluginsMTime`), the outcome of
`LoadPlugins`, the regexp compiler, and the `time.Now()` reading used by
`buildRuntime`. -/
structure ReloadEnv where
  latestMTime : Int
  loadResult : Except String (List PluginDefinition)
  compile : String → Except String GoRegexp
  now : Int

/-- `maybeReload`: reload only when the directory's modification time is
strictly newer; a failed `LoadPlugins` keeps the previous set; a
definition failing `buildRuntime` during reload is skipped. -/
def maybeReload (env : ReloadEnv) (p : PluginCollector) : PluginCollector :=
  if p.pluginsDir = "" then p
  else
    let modTime := env.latestMTime
    if ¬ modTime > p.lastMod then p
    else
      match env.loadResult with
      | .error _ => p
      | .ok defs =>
          let runtime := defs.filterMap
            (fun d => (buildRuntime env.compile env.now d p.pfx).toOption)
          { p with plugins := runtime, lastMod := modTime }

/-- One iteration of the loop in `PluginCollector.Collect` for a single
runtime: skip when not yet due; on execution error advance the schedule
and emit nothing; on success emit one metric and advance the schedule.
`exec` stands for `PluginCollector.execute` (which performs I/O). -/
def pluginStep (exec : PluginRuntime → Except String ℚ) (now : Int)
    (pl : PluginRuntime) : PluginRuntime × Option Metric :=
  if now < pl.nextRun then (pl, none)
  else
    match exec pl with
    | .error _ => ({ pl with nextRun := now + pl.interval }, none)
    | .ok value =>
        let labels :=
          setL (pl.pdef.labels.foldl (fun acc kv => setL acc kv.1 kv.2) [])
            "plugin" pl.pdef.name
        ({ pl with nextRun := now + pl.interval },
         some { name := pl.metricKey, labels := labels, value := value,
                type := pl.pdef.metricType })

/-- `PluginCollector.Collect`: reload check, then the per-runtime loop;
the third component is the returned `error`, which the source always
leaves `nil`. -/
def pluginCollect (env : ReloadEnv) (exec : PluginRuntime → Except String ℚ)
    (now : Int) (p : PluginCollector) :
    PluginCollector × List Metric × Option String :=
  let p1 := maybeReload env p
  let steps := p1.plugins.map (pluginStep exec now)
  ({ p1 with plugins := steps.map Prod.fst }, steps.filterMap Prod.snd, none)

/-! ## HTTP endpoint-scrape collector (`internal/collector/http.go`) -/

structure EndpointConfig where
  name : String
  url : String
  deriving Repr, DecidableEq

/-- `HTTPCollector.Collect`: scrape every endpoint, log-and-skip
failures, never return an error. `scrape` stands for
`HTTPCollector.scrapeEndpoint` (which performs the network I/O). -/
def httpCollect (scrape : EndpointConfig → Except String (List Metric))
    (endpoints : List EndpointConfig) : List Metric × Option String :=
  (endpoints.foldl
    (fun acc ep =>
      match scrape ep with
      | .error _ => acc
      | .ok ms => acc ++ ms) [],
   none)

/-! ## Orchestrator (`internal/orchestrator/orchestrator.go`) -/

/-- The orchestrator state relevant to label enrichment. -/
structure Orchestrator where
  hostname : String
  globalLabels : Labels

/-- `NewOrchestratorWithLabels`: the detected hostname (`os.Hostname`,
already defaulted to "unknown" on error) is overridden by a non-empty
`hostname` entry of the global-label map; the map is copied. -/
def newOrchestratorWithLabels (detectedHostname : String)
    (globalLabels : Labels) : Orchestrator :=
  let hostname :=
    match getL globalLabels "hostname" with
    | some customHostname =>
        if customHostname ≠ "" then customHostname else detectedHostname
    | none => detectedHostname
  { hostname := hostname
    globalLabels := globalLabels.foldl (fun acc kv => setL acc kv.1 kv.2) [] }

/-- `Orchestrator.addGlobalLabels`: stamp `hostname`, then every
global label except the `hostname` key, onto every metric. -/
def addGlobalLabels (o : Orchestrator) (metrics : List Metric) : List Metric :=
  metrics.map fun m =>
    let ls := setL m.labels "hostname" o.hostname
    let ls := o.globalLabels.foldl
      (fun acc kv => if kv.1 ≠ "hostname" then setL acc kv.1 kv.2 else acc) ls
    { m with labels := ls }

/-! ## Exposition-format parsing (`parsePrometheusMetrics`)

The two fixed regexps of `http.go`,

  metricLineRegex = `^([a-zA-Z_:][a-zA-Z0-9_:]*)\s*(\{[^}]*\})?\s+([+-]?[0-9]*\.?[0-9]+(?:[eE][+-]?[0-9]+)?)\s*(\d+)?$`
  labelRegex      = `([a-zA-Z_][a-zA-Z0-9_]*)="([^"]*)"`

are translated into equivalent deterministic matchers (for these
patterns the leftmost-first greedy submatch semantics of Go's regexp
package coincides with maximal-munch parsing, since no character class
of a component overlaps the one that follows it in a way that
backtracking could exploit).
-/

/-- The regexp class `\s` of Go's regexp package: `[\t\n\f\r ]`. -/
def isReSpace (c : Char) : Bool :=
  c = '\t' ∨ c = '\n' ∨ c = Char.ofNat 12 ∨ c = '\r' ∨ c = ' '

/-- The value component `[+-]?[0-9]*\.?[0-9]+(?:[eE][+-]?[0-9]+)?` as a
maximal-munch token parse; returns the token and the rest. -/
def parseFloatToken (cs : List Char) : Option (List Char × List Char) :=
  let signRest : List Char × List Char :=
    match cs with
    | '+' :: r => (['+'], r)
    | '-' :: r => (['-'], r)
    | _ => ([], cs)
  let sgn := signRest.1
  let cs1 := signRest.2
  let ds1 := cs1.takeWhile isDigitChar
  let cs2 := cs1.dropWhile isDigitChar
  let core? : Option (List Char × List Char) :=
    match cs2 with
    | '.' :: r =>
        let ds2 := r.takeWhile isDigitChar
        if ds2 = [] then
          if ds1 = [] then none else some (ds1, cs2)
        else some (ds1 ++ '.' :: ds2, r.dropWhile isDigitChar)
    | _ => if ds1 = [] then none else some (ds1, cs2)
  core?.bind fun core =>
    match core.2 with
    | e :: r =>
        if e = 'e' ∨ e = 'E' then
          let esRest : List Char × List Char :=
            match r with
            | '+' :: rr => (['+'], rr)
            | '-' :: rr => (['-'], rr)
            | _ => ([], r)
          let ed := esRest.2.takeWhile isDigitChar
          if ed = [] then some (sgn ++ core.1, core.2)
          else some (sgn ++ core.1 ++ e :: esRest.1 ++ ed,
                     esRest.2.dropWhile isDigitChar)
        else some (sgn ++ core.1, core.2)
    | [] => some (sgn ++ core.1, [])

/-- The trailing `\s*(\d+)?$` of the metric-line regexp: after the
value, optional whitespace then an optional (ignored) integer timestamp
and end of line. -/
def timestampTailOk (cs : List Char) : Bool :=
  (cs.dropWhile isReSpace).all isDigitChar

/-- `metricLineRegex.FindStringSubmatch` on a (trimmed) line: yields the
metric name, the brace-delimited label group ("" when absent, as for a
non-participating regexp group) and the value text. -/
def parseMetricLine (line : String) : Option (String × String × String) :=
  match line.toList with
  | [] => none
  | c0 :: rest0 =>
      if isMetricStartChar c0 then
        let name := String.mk (c0 :: rest0.takeWhile isMetricChar)
        let rest1 := rest0.dropWhile isMetricChar
        let sp1 := rest1.takeWhile isReSpace
        let rest2 := rest1.dropWhile isReSpace
        match rest2 with
        | '{' :: inner =>
            let labelBody := inner.takeWhile (· ≠ '}')
            (match inner.dropWhile (· ≠ '}') with
             | '}' :: rest3 =>
                 let sp2 := rest3.takeWhile isReSpace
                 let rest4 := rest3.dropWhile isReSpace
                 if sp2 = [] then none
                 else
                   (parseFloatToken rest4).bind fun vtail =>
                     if timestampTailOk vtail.2 then
                       some (name, String.mk ('{' :: labelBody ++ ['}']),
                             String.mk vtail.1)
                     else none
             | _ => none)
        | _ =>
            if sp1 = [] then none
            else
              (parseFloatToken rest2).bind fun vtail =>
                if timestampTailOk vtail.2 then
                  some (name, "", String.mk vtail.1)
                else none
      else none

def isLabelStartChar (c : Char) : Bool := isAsciiAlpha c ∨ c = '_'

def isLabelChar (c : Char) : Bool := isAsciiAlpha c ∨ isDigitChar c ∨ c = '_'

/-- Scan step of `labelRegex.FindAllStringSubmatch`. The structural
fuel parameter only bounds the recursion (each step strictly shrinks the
input, so any fuel above the input length is exact); it keeps the
function kernel-reducible. -/
def findLabelPairsAux : Nat → List Char → List (String × String)
  | 0, _ => []
  | _, [] => []
  | fuel + 1, c :: rest =>
      if isLabelStartChar c then
        let ident := c :: rest.takeWhile isLabelChar
        match rest.dropWhile isLabelChar with
        | '=' :: '"' :: r2 =>
            let v := r2.takeWhile (· ≠ '"')
            match r2.dropWhile (· ≠ '"') with
            | '"' :: r3 =>
                (String.mk ident, String.mk v) :: findLabelPairsAux fuel r3
            | _ => findLabelPairsAux fuel rest
        | _ => findLabelPairsAux fuel rest
      else findLabelPairsAux fuel rest

/-- `labelRegex.FindAllStringSubmatch`: successive non-overlapping
leftmost matches of `key="value"`, each as a (key, value) pair. On a
failed match attempt the scan advances one character, as the regexp
engine does. -/
def findLabelPairs (cs : List Char) : List (String × String) :=
  findLabelPairsAux (cs.length + 1) cs

/-- `strings.Trim(labelsStr, "\x7b\x7d")`. -/
def trimBraces (s : String) : String :=
  String.mk (((s.toList.dropWhile fun c => c = '{' ∨ c = '}').reverse.dropWhile
    (fun c => c = '{' ∨ c = '}')).reverse)

/-- Label map of one metric line: `endpoint` first, then every parsed
`key="value"` pair. -/
def promLabelsOf (endpointName : String) (labelsStr : String) : Labels :=
  if labelsStr = "" then [("endpoint", endpointName)]
  else
    (findLabelPairs (trimBraces labelsStr).toList).foldl
      (fun acc kv => setL acc kv.1 kv.2) [("endpoint", endpointName)]

/-- `strings.HasPrefix` on character lists. -/
def listStartsWith : List Char → List Char → Bool
  | _, [] => true
  | [], _ :: _ => false
  | c :: cs, p :: ps => c = p ∧ listStartsWith cs ps

/-- `strings.HasPrefix`. -/
def strStartsWith (s pat : String) : Bool :=
  listStartsWith s.toList pat.toList

/-- `strings.HasSuffix`. -/
def strEndsWith (s pat : String) : Bool :=
  listStartsWith s.toList.reverse pat.toList.reverse

/-- Metric-type classification: an explicit TYPE directive wins (only
`counter` upgrades), otherwise the `_total` / `_count` suffix heuristic,
otherwise `gauge`. -/
def metricTypeFor (types : Labels) (name : String) : String :=
  match getL types name with
  | some t => if t = "counter" then "counter" else "gauge"
  | none =>
      if strEndsWith name "_total" ∨ strEndsWith name "_count" then "counter"
      else "gauge"

/-- Accumulator loop of `strings.Fields` (ASCII whitespace fragment):
split on maximal whitespace runs, no empty fields. -/
def fieldsAux : List Char → List Char → List String
  | acc, [] => if acc = [] then [] else [String.mk acc.reverse]
  | acc, c :: rest =>
      if isAsciiSpace c then
        if acc = [] then fieldsAux [] rest
        else String.mk acc.reverse :: fieldsAux [] rest
      else fieldsAux (c :: acc) rest

/-- `strings.Fields` (ASCII whitespace fragment). -/
def fieldsGo (s : String) : List String :=
  fieldsAux [] s.toList

/-- Split a character list at each newline, `String.splitOn`-style. -/
def splitAtNewlines : List Char → List (List Char)
  | [] => [[]]
  | c :: rest =>
      if c = '\n' then [] :: splitAtNewlines rest
      else
        match splitAtNewlines rest with
        | line :: more => (c :: line) :: more
        | [] => [[c]]

/-- Drop a single trailing carriage return. -/
def dropTrailingCR (cs : List Char) : List Char :=
  match cs.reverse with
  | '\r' :: _ => cs.dropLast
  | _ => cs

/-- `bufio.Scanner` with `ScanLines`: split on newlines, dropping one
trailing carriage return per line. -/
def splitLinesGo (body : String) : List String :=
  (splitAtNewlines body.toList).map fun cs => String.mk (dropTrailingCR cs)

/-- One iteration of the line loop of `parsePrometheusMetrics` over the
state (TYPE directives seen so far, metrics emitted so far). -/
def promLine (endpointName : String) (st : Labels × List Metric)
    (rawLine : String) : Labels × List Metric :=
  let line := trimAsciiSpace rawLine
  if line = "" then st
  else if strStartsWith line "# TYPE " then
    match fieldsGo line with
    | _ :: _ :: mname :: mtype :: _ => (setL st.1 mname mtype, st.2)
    | _ => st
  else if strStartsWith line "#" then st
  else
    match parseMetricLine line with
    | none => st
    | some nlv =>
        match parseGoFloat nlv.2.2 with
        | none => st
        | some value =>
            (st.1,
             st.2 ++ [{ name := nlv.1
                        labels := promLabelsOf endpointName nlv.2.1
                        value := value
                        type := metricTypeFor st.1 nlv.1 }])

/-- `HTTPCollector.parsePrometheusMetrics`. -/
def parsePrometheusMetrics (endpointName : String) (body : String) :
    List Metric :=
  ((splitLinesGo body).foldl (promLine endpointName) ([], [])).2

/-! ## Spec-side predicates for refinement claims -/

/-- Number of source variants set on a definition (the `sourceCount`
counter of `validatePluginDefinition`). -/
abbrev sourceVariantCount (d : PluginDefinition) : Nat :=
  (if d.command.isSome then 1 else 0) +
  (if d.http.isSome then 1 else 0) +
  (if d.file.isSome then 1 else 0)

/-- The acceptance condition exactly as claim C1 states it: name and
metric non-empty, metric matches the grammar, metric_type is gauge or
counter, interval strictly positive, exactly one source variant set. -/
abbrev specC1Accepts (d : PluginDefinition) : Prop :=
  d.name ≠ "" ∧ d.metric ≠ "" ∧ matchMetricName d.metric = true ∧
  (d.metricType = "gauge" ∨ d.metricType = "counter") ∧
  0 < d.intervalSeconds ∧ sourceVariantCount d = 1

/-- Well-formedness of a set command variant: non-empty argument vector
whose executable is not deny-listed. -/
def commandContentOk : Option CommandSource → Bool
  | none => true
  | some c =>
      match c.command with
      | [] => false
      | c0 :: _ => ¬ blacklistedCommand c0

/-- Well-formedness of a set http variant: non-empty url. -/
def httpContentOk : Option HTTPSource → Bool
  | none => true
  | some h => h.url ≠ ""

/-- Well-formedness of a set file variant: non-empty path. -/
def fileContentOk : Option FileSource → Bool
  | none => true
  | some f => f.path ≠ ""

/-! ## Helper lemmas -/

theorem getL_setL_self (ls : Labels) (k v : String) :
    getL (setL ls k v) k = some v := by
  induction ls with
  | nil => simp [setL, getL]
  | cons hd tl ih =>
      obtain ⟨k', v'⟩ := hd
      by_cases h : k' = k
      · simp [setL, getL, h]
      · simp [setL, getL, h, ih]

theorem getL_setL_ne (ls : Labels) (k' v k : String) (h : k' ≠ k) :
    getL (setL ls k' v) k = getL ls k := by
  induction ls with
  | nil => simp [setL, getL, h]
  | cons hd tl ih =>
      obtain ⟨k0, v0⟩ := hd
      by_cases h0 : k0 = k'
      · simp [setL, getL, h0, h]
      · simp only [setL, getL, if_neg h0]
        by_cases h1 : k0 = k <;> simp [getL, h1, ih]

/-- The global-label fold of `addGlobalLabels` never touches the
`hostname` binding. -/
theorem foldl_globals_hostname (gl : Labels) (init : Labels) :
    getL (gl.foldl
      (fun acc kv => if kv.1 ≠ "hostname" then setL acc kv.1 kv.2 else acc)
      init) "hostname" = getL init "hostname" := by
  induction gl generalizing init with
  | nil => rfl
  | cons hd tl ih =>
      obtain ⟨k0, v0⟩ := hd
      by_cases h : k0 = "hostname"
      · simp only [List.foldl_cons]
        rw [if_neg (by simp [h])]
        exact ih init
      · simp only [List.foldl_cons, if_pos (by simpa using h)]
        rw [ih, getL_setL_ne _ _ _ _ h]

/-- The global-label fold leaves any key not occurring in the folded
list untouched. -/
theorem foldl_globals_preserve (gl : Labels) (init : Labels) (k : String)
    (hk : k ∉ gl.map Prod.fst) :
    getL (gl.foldl
      (fun acc kv => if kv.1 ≠ "hostname" then setL acc kv.1 kv.2 else acc)
      init) k = getL init k := by
  induction gl generalizing init with
  | nil => rfl
  | cons hd tl ih =>
      obtain ⟨k0, v0⟩ := hd
      simp only [List.map_cons, List.mem_cons, not_or] at hk
      by_cases h : k0 = "hostname"
      · simp only [List.foldl_cons]
        rw [if_neg (by simp [h])]
        exact ih init hk.2
      · simp only [List.foldl_cons, if_pos (by simpa using h)]
        rw [ih _ hk.2, getL_setL_ne _ _ _ _ (Ne.symm hk.1)]

/-- A pair of the global-label map (no duplicate keys, key not
`hostname`) survives the fold as its binding. -/
theorem foldl_globals_mem (gl : Labels) (init : Labels) (k v : String)
    (hnd : (gl.map Prod.fst).Nodup) (hm : (k, v) ∈ gl)
    (hk : k ≠ "hostname") :
    getL (gl.foldl
      (fun acc kv => if kv.1 ≠ "hostname" then setL acc kv.1 kv.2 else acc)
      init) k = some v := by
  induction gl generalizing init with
  | nil => cases hm
  | cons hd tl ih =>
      obtain ⟨k0, v0⟩ := hd
      simp only [List.map_cons, List.nodup_cons] at hnd
      rcases List.mem_cons.mp hm with heq | htl
      · obtain ⟨rfl, rfl⟩ := Prod.mk.injEq .. ▸ heq
        have hknotin : k ∉ tl.map Prod.fst := by
          simpa using hnd.1
        simp only [List.foldl_cons, if_pos (by simpa using hk)]
        rw [foldl_globals_preserve _ _ _ hknotin, getL_setL_self]
      · by_cases h : k0 = "hostname"
        · simpa [List.foldl_cons, h] using ih init hnd.2 htl
        · simp only [List.foldl_cons, if_pos (by simpa using h)]
          exact ih _ hnd.2 htl

/-! ## Validation characterization -/

/-- Characterization of `validatePluginDefinition`. -/
theorem validate_isOk_iff (d : PluginDefinition) :
    (validatePluginDefinition d).isOk = true ↔
      (specC1Accepts d ∧ commandContentOk d.command = true ∧
       httpContentOk d.http = true ∧ fileContentOk d.file = true) := by
  obtain ⟨n, m, mt, iv, lb, ts, pr, cmd, ht, fl⟩ := d
  by_cases h1 : n = ""
  · simp [validatePluginDefinition, h1, Except.isOk, Except.toBool, specC1Accepts, sourceVariantCount]
  by_cases h2 : m = ""
  · simp [validatePluginDefinition, h1, h2, Except.isOk, Except.toBool, specC1Accepts, sourceVariantCount]
  by_cases h3 : matchMetricName m = true
  swap
  · simp [validatePluginDefinition, h1, h2, h3, Except.isOk, Except.toBool, specC1Accepts, sourceVariantCount]
  by_cases h4 : mt = "gauge" ∨ mt = "counter"
  swap
  · push_neg at h4
    simp [validatePluginDefinition, h1, h2, h3, h4.1, h4.2, Except.isOk, Except.toBool, specC1Accepts, sourceVariantCount]
  have hmt : ¬ (mt ≠ "gauge" ∧ mt ≠ "counter") := by tauto
  by_cases h5 : iv ≤ 0
  · have hiv : ¬ 0 < iv := by omega
    simp [validatePluginDefinition, h1, h2, h3, hmt, hiv, h5, Except.isOk, Except.toBool, specC1Accepts, sourceVariantCount]
  have h5' : 0 < iv := by omega
  match cmd with
  | some ⟨[]⟩ =>
      simp [validatePluginDefinition, h1, h2, h3, hmt, h5, h5', commandContentOk,
        Except.isOk, Except.toBool, specC1Accepts, sourceVariantCount]
  | some ⟨c0 :: cl⟩ =>
      by_cases hb : blacklistedCommand c0 = true
      · simp [validatePluginDefinition, h1, h2, h3, hmt, h5, h5', hb,
          commandContentOk, Except.isOk, Except.toBool, specC1Accepts, sourceVariantCount]
      · match ht with
        | some ⟨u⟩ =>
            by_cases hu : u = ""
            · simp [validatePluginDefinition, validatePluginDefinition.validateHTTPOn,
                h1, h2, h3, hmt, h5, h5', hb, hu, commandContentOk, httpContentOk,
                Except.isOk, Except.toBool, specC1Accepts, sourceVariantCount]
            · match fl with
              | some ⟨fp⟩ =>
                  by_cases hp : fp = ""
                  · simp [validatePluginDefinition,
                      validatePluginDefinition.validateHTTPOn,
                      validatePluginDefinition.validateFileOn,
                      h1, h2, h3, hmt, h5, h5', hb, hu, hp, commandContentOk,
                      httpContentOk, fileContentOk, Except.isOk, Except.toBool, specC1Accepts, sourceVariantCount]
                  · simp [validatePluginDefinition,
                      validatePluginDefinition.validateHTTPOn,
                      validatePluginDefinition.validateFileOn,
                      validatePluginDefinition.validateCount,
                      validatePluginDefinition.sourceCount,
                      h1, h2, h3, hmt, h5, h5', hb, hu, hp, commandContentOk,
                      httpContentOk, fileContentOk, Except.isOk, Except.toBool, specC1Accepts, sourceVariantCount]
              | none =>
                  simp [validatePluginDefinition,
                    validatePluginDefinition.validateHTTPOn,
                    validatePluginDefinition.validateFileOn,
                    validatePluginDefinition.validateCount,
                    validatePluginDefinition.sourceCount,
                    h1, h2, h3, hmt, h5, h5', hb, hu, commandContentOk,
                    httpContentOk, fileContentOk, Except.isOk, Except.toBool, specC1Accepts, sourceVariantCount]
        | none =>
            match fl with
            | some ⟨fp⟩ =>
                by_cases hp : fp = ""
                · simp [validatePluginDefinition,
                    validatePluginDefinition.validateHTTPOn,
                    validatePluginDefinition.validateFileOn,
                    h1, h2, h3, hmt, h5, h5', hb, hp, commandContentOk,
                    httpContentOk, fileContentOk, Except.isOk, Except.toBool, specC1Accepts, sourceVariantCount]
                · simp [validatePluginDefinition,
                    validatePluginDefinition.validateHTTPOn,
                    validatePluginDefinition.validateFileOn,
                    validatePluginDefinition.validateCount,
                    validatePluginDefinition.sourceCount,
                    h1, h2, h3, hmt, h5, h5', hb, hp, commandContentOk,
                    httpContentOk, fileContentOk, Except.isOk, Except.toBool, specC1Accepts, sourceVariantCount]
            | none =>
                simp [validatePluginDefinition,
                  validatePluginDefinition.validateHTTPOn,
                  validatePluginDefinition.validateFileOn,
                  validatePluginDefinition.validateCount,
                  validatePluginDefinition.sourceCount,
                  h1, h2, h3, hmt, h5, h5', hb, commandContentOk,
                  httpContentOk, fileContentOk, Except.isOk, Except.toBool, specC1Accepts, sourceVariantCount, h4, h5']
  | none =>
      match ht with
      | some ⟨u⟩ =>
          by_cases hu : u = ""
          · simp [validatePluginDefinition, validatePluginDefinition.validateHTTPOn,
              h1, h2, h3, hmt, h5, h5', hu, commandContentOk, httpContentOk,
              Except.isOk, Except.toBool, specC1Accepts, sourceVariantCount]
          · match fl with
            | some ⟨fp⟩ =>
                by_cases hp : fp = ""
                · simp [validatePluginDefinition,
                    validatePluginDefinition.validateHTTPOn,
                    validatePluginDefinition.validateFileOn,
                    h1, h2, h3, hmt, h5, h5', hu, hp, commandContentOk,
                    httpContentOk, fileContentOk, Except.isOk, Except.toBool, specC1Accepts, sourceVariantCount]
                · simp [validatePluginDefinition,
                    validatePluginDefinition.validateHTTPOn,
                    validatePluginDefinition.validateFileOn,
                    validatePluginDefinition.validateCount,
                    validatePluginDefinition.sourceCount,
                    h1, h2, h3, hmt, h5, h5', hu, hp, commandContentOk,
                    httpContentOk, fileContentOk, Except.isOk, Except.toBool, specC1Accepts, sourceVariantCount]
            | none =>
                simp [validatePluginDefinition,
                  validatePluginDefinition.validateHTTPOn,
                  validatePluginDefinition.validateFileOn,
                  validatePluginDefinition.validateCount,
                  validatePluginDefinition.sourceCount,
                  h1, h2, h3, hmt, h5, h5', hu, commandContentOk,
                  httpContentOk, fileContentOk, Except.isOk, Except.toBool, specC1Accepts, sourceVariantCount, h4, h5']
      | none =>
          match fl with
          | some ⟨fp⟩ =>
              by_cases hp : fp = ""
              · simp [validatePluginDefinition,
                  validatePluginDefinition.validateHTTPOn,
                  validatePluginDefinition.validateFileOn,
                  h1, h2, h3, hmt, h5, h5', hp, commandContentOk,
                  httpContentOk, fileContentOk, Except.isOk, Except.toBool, specC1Accepts, sourceVariantCount]
              · simp [validatePluginDefinition,
                  validatePluginDefinition.validateHTTPOn,
                  validatePluginDefinition.validateFileOn,
                  validatePluginDefinition.validateCount,
                  validatePluginDefinition.sourceCount,
                  h1, h2, h3, hmt, h5, h5', hp, commandContentOk,
                  httpContentOk, fileContentOk, Except.isOk, Except.toBool, specC1Accepts, sourceVariantCount, h4, h5']
          | none =>
              simp [validatePluginDefinition,
                validatePluginDefinition.validateHTTPOn,
                validatePluginDefinition.validateFileOn,
                validatePluginDefinition.validateCount,
                validatePluginDefinition.sourceCount,
                h1, h2, h3, hmt, h5, h5', commandContentOk,
                httpContentOk, fileContentOk, Except.isOk, Except.toBool, specC1Accepts, sourceVariantCount]


/-! ## Claim C1: validation acceptance condition -/

/-- A definition meeting every condition of claim C1 (name/metric
non-empty, metric matches the grammar, gauge type, positive interval,
exactly one source variant set: a command variant) whose command
argument vector is empty. -/
def c1cex : PluginDefinition :=
  { name := "a", metric := "m", metricType := "gauge", intervalSeconds := 1,
    labels := [], timeoutSeconds := 0, parser := ⟨"", ""⟩,
    command := some ⟨[]⟩, http := none, file := none }

/-- C1, counterexample: the claimed equivalence fails — `c1cex`
satisfies every condition on the claim's right-hand side, yet
`validatePluginDefinition` rejects it (the command variant's argument
vector is empty). -/
theorem c1_counterexample :
    ¬ (((validatePluginDefinition c1cex).isOk = true) ↔ specC1Accepts c1cex) := by
  decide

/-- C1 as amended: validation accepts a definition iff name and metric
are non-empty, the metric matches the naming grammar, the metric type is
gauge or counter, the interval is strictly positive, exactly one source
variant is set, and the set variant is well-formed (a command variant
has a non-empty argument vector whose executable is not deny-listed, an
http variant a non-empty url, a file variant a non-empty path). -/
theorem c1_validate_accepts_iff (d : PluginDefinition) :
    (validatePluginDefinition d).isOk = true ↔
      (specC1Accepts d ∧ commandContentOk d.command = true ∧
       httpContentOk d.http = true ∧ fileContentOk d.file = true) :=
  validate_isOk_iff d

/-! ## Claim C6: deny-listed commands are rejected -/

/-- C6: any definition whose command variant's first argument has a
deny-listed base name (compared case-insensitively, path prefix
stripped) is rejected by validation. -/
theorem c6_blacklisted_command_rejected (d : PluginDefinition)
    (c : CommandSource) (c0 : String) (rest : List String)
    (hc : d.command = some c) (hl : c.command = c0 :: rest)
    (hb : asciiLower (filepathBase c0) ∈
      ["rm", "sudo", "mv", "cp", "shutdown", "reboot", "halt", "init"]) :
    (validatePluginDefinition d).isOk = false := by
  have hbl : blacklistedCommand c0 = true := by
    unfold blacklistedCommand
    simp only [List.mem_cons, List.mem_singleton, List.not_mem_nil, or_false] at hb
    rcases hb with h | h | h | h | h | h | h | h <;> rw [h] <;> decide
  have hco : commandContentOk d.command = false := by
    rw [hc]
    simp [commandContentOk, hl, hbl]
  cases hv : (validatePluginDefinition d).isOk with
  | false => rfl
  | true =>
      exfalso
      have h := (validate_isOk_iff d).mp hv
      rw [hco] at h
      exact Bool.false_ne_true h.2.1

/-- A concrete deny-listed definition: upper-case `RM` behind a path
prefix. -/
def c6cex : PluginDefinition :=
  { name := "bad", metric := "m", metricType := "gauge", intervalSeconds := 1,
    labels := [], timeoutSeconds := 0, parser := ⟨"", ""⟩,
    command := some ⟨["/usr/bin/RM", "-rf", "/"]⟩, http := none, file := none }

/-- C6 witness: the concrete definition running `/usr/bin/RM` is
rejected. -/
theorem c6_witness : (validatePluginDefinition c6cex).isOk = false :=
  c6_blacklisted_command_rejected c6cex ⟨["/usr/bin/RM", "-rf", "/"]⟩
    "/usr/bin/RM" ["-rf", "/"] rfl rfl (by decide)

/-! ## Claim C10: default timeout resolution -/

/-- C10: a validated definition with non-positive (or absent, i.e. zero)
`timeout_seconds` gets exactly the 10-second default timeout in its
built runtime, and the timeout value never affects whether building
(validation included) succeeds. -/
theorem c10_default_timeout (compile : String → Except String GoRegexp)
    (now : Int) (d : PluginDefinition) (pfx : String) :
    (∀ rt, buildRuntime compile now d pfx = .ok rt →
        d.timeoutSeconds ≤ 0 → rt.timeout = 10 * goSecond)
    ∧ (∀ t : Int,
        (buildRuntime compile now { d with timeoutSeconds := t } pfx).isOk =
          (buildRuntime compile now d pfx).isOk) := by
  constructor
  · intro rt h hts
    unfold buildRuntime at h
    cases hv : validatePluginDefinition d with
    | error e => rw [hv] at h; cases h
    | ok u =>
        rw [hv] at h
        cases hn : normalizeParser compile d.parser with
        | error e => rw [hn] at h; cases h
        | ok pr =>
            rw [hn] at h
            simp only [Except.ok.injEq] at h
            have hgt : ¬ d.timeoutSeconds > 0 := by omega
            rw [← h]
            simp [hgt, defaultPluginTimeout]
  · intro t
    have hval : validatePluginDefinition { d with timeoutSeconds := t } =
        validatePluginDefinition d := by
      cases d; rfl
    have hpar : ({ d with timeoutSeconds := t } : PluginDefinition).parser =
        d.parser := rfl
    unfold buildRuntime
    rw [hval, hpar]
    cases hv : validatePluginDefinition d with
    | error e => rfl
    | ok u =>
        cases hn : normalizeParser compile d.parser with
        | error e => rfl
        | ok pr => rfl

/-- A valid file-source definition with a negative timeout field. -/
def c10def : PluginDefinition :=
  { name := "disk", metric := "disk_free", metricType := "gauge",
    intervalSeconds := 30, labels := [], timeoutSeconds := -5,
    parser := ⟨"", ""⟩, command := none, http := none,
    file := some ⟨"/tmp/x"⟩ }

def c10compile : String → Except String GoRegexp := fun _ => .error "unused"

/-- The runtime `buildRuntime` produces from `c10def`. -/
def c10rt : PluginRuntime :=
  { pdef := c10def, nextRun := 0, interval := 30 * goSecond,
    timeout := 10 * goSecond, parser := ⟨"number", none, "", "number"⟩,
    source := "file", metricKey := "mc_disk_free" }

/-- C10 witness: building the concrete definition with
`timeout_seconds = -5` succeeds and resolves the timeout to 10s. -/
theorem c10_witness : c10rt.timeout = 10 * goSecond :=
  (c10_default_timeout c10compile 0 c10def "mc_").1 c10rt rfl (by decide)

/-! ## Claim C2: failed or unnecessary reloads preserve the runtime set -/

/-- C2: if the directory's newest modification time is not strictly
newer than the last observed value, or reloading the definitions errors,
`maybeReload` leaves the collector (runtime set included) exactly as it
was; conversely the runtime set changes only when the modification time
is strictly newer and the load succeeded. -/
theorem c2_reload_preserves (env : ReloadEnv) (p : PluginCollector) :
    ((¬ env.latestMTime > p.lastMod ∨ ∃ e, env.loadResult = .error e) →
        maybeReload env p = p)
    ∧ ((maybeReload env p).plugins ≠ p.plugins →
        env.latestMTime > p.lastMod ∧ ∃ defs, env.loadResult = .ok defs) := by
  constructor
  · intro h
    rcases h with hm | ⟨e, he⟩
    · simp [maybeReload, hm]
    · simp [maybeReload, he]
  · intro hne
    by_cases hd : p.pluginsDir = ""
    · exfalso; apply hne; simp [maybeReload, hd]
    by_cases hm : env.latestMTime > p.lastMod
    · refine ⟨hm, ?_⟩
      cases hl : env.loadResult with
      | error e => exfalso; apply hne; simp [maybeReload, hl]
      | ok defs => exact ⟨defs, rfl⟩
    · exfalso; apply hne; simp [maybeReload, hm]

def c2env : ReloadEnv := ⟨5, .error "parse failure", fun _ => .error "", 0⟩

def c2p : PluginCollector := ⟨"mc_", [], "/etc/metricsd/plugins", 7⟩

/-- C2 witness: a stale modification time (5 ≤ 7) with a failing load
leaves the collector untouched. -/
theorem c2_witness : maybeReload c2env c2p = c2p :=
  (c2_reload_preserves c2env c2p).1 (Or.inl (by decide))

/-! ## Claim C3: the schedule only ever advances -/

/-- C3: over one `Collect` invocation the runtime list after the loop is
the elementwise `pluginStep` of the post-reload list; every runtime's
next-due time is never decreased by its step (given the non-negative
intervals `buildRuntime` guarantees); and a due runtime whose execution
errors emits no metric yet still has its next-due time advanced to now
plus its interval (the cycle's metric list being the `filterMap` of the
step outputs). -/
theorem c3_schedule_monotone (env : ReloadEnv)
    (exec : PluginRuntime → Except String ℚ) (now : Int)
    (p : PluginCollector)
    (hint : ∀ rt ∈ (maybeReload env p).plugins, 0 ≤ rt.interval) :
    ((pluginCollect env exec now p).1.plugins =
        (maybeReload env p).plugins.map (fun pl => (pluginStep exec now pl).1))
    ∧ (∀ pl ∈ (maybeReload env p).plugins,
        pl.nextRun ≤ (pluginStep exec now pl).1.nextRun)
    ∧ (∀ pl ∈ (maybeReload env p).plugins, ¬ now < pl.nextRun →
        ∀ e, exec pl = .error e →
          (pluginStep exec now pl).1.nextRun = now + pl.interval ∧
          (pluginStep exec now pl).2 = none) := by
  refine ⟨?_, ?_, ?_⟩
  · simp only [pluginCollect, List.map_map]
    rfl
  · intro pl hpl
    have h := hint pl hpl
    unfold pluginStep
    by_cases hlt : now < pl.nextRun
    · simp [hlt]
    · cases hx : exec pl <;> simp [hlt, hx] <;> omega
  · intro pl _ hdue e he
    unfold pluginStep
    simp [hdue, he]

def c3def : PluginDefinition :=
  { name := "x", metric := "x_val", metricType := "gauge",
    intervalSeconds := 1, labels := [], timeoutSeconds := 0,
    parser := ⟨"", ""⟩, command := none, http := none,
    file := some ⟨"/tmp/f"⟩ }

def c3rt : PluginRuntime :=
  { pdef := c3def, nextRun := 3, interval := goSecond,
    timeout := 10 * goSecond, parser := ⟨"number", none, "", "number"⟩,
    source := "file", metricKey := "mc_x_val" }

def c3env : ReloadEnv := ⟨0, .ok [], fun _ => .error "", 0⟩

def c3p : PluginCollector := ⟨"mc_", [c3rt], "", 0⟩

def c3exec : PluginRuntime → Except String ℚ := fun _ => .error "boom"

/-- C3 witness: a due runtime whose execution fails still advances its
next-due time to now plus its interval and contributes no metric. -/
theorem c3_witness :
    (pluginStep c3exec 5 c3rt).1.nextRun = 5 + c3rt.interval ∧
    (pluginStep c3exec 5 c3rt).2 = none :=
  (c3_schedule_monotone c3env c3exec 5 c3p
      (fun rt hr => by
        have hr' : rt ∈ [c3rt] := hr
        rw [List.mem_singleton] at hr'
        subst hr'
        decide)).2.2
    c3rt (show c3rt ∈ [c3rt] from List.mem_singleton.mpr rfl)
    (by decide) "boom" rfl

/-! ## Claim C9: the two collectors never surface an error -/

/-- C9: the plugin collector's `Collect` and the HTTP endpoint-scrape
collector's `Collect` always return a nil error, whatever the
environment, execution outcomes and state: per-plugin and per-target
failures are absorbed internally. -/
theorem c9_collect_never_errors :
    (∀ (env : ReloadEnv) (exec : PluginRuntime → Except String ℚ)
        (now : Int) (p : PluginCollector),
        (pluginCollect env exec now p).2.2 = none)
    ∧ (∀ (scrape : EndpointConfig → Except String (List Metric))
        (endpoints : List EndpointConfig),
        (httpCollect scrape endpoints).2 = none) :=
  ⟨fun _ _ _ _ => rfl, fun _ _ => rfl⟩

/-! ## Claim C4: hostname and global labels on every shipped metric -/

/-- C4: every metric of the enriched batch carries a `hostname` label
equal to the orchestrator's host identity, and the binding of every
non-`hostname` key of the global-label map (Go map keys are unique,
hence the `Nodup` hypothesis); no global-label entry overwrites the
`hostname` key. -/
theorem c4_shipped_labels (o : Orchestrator) (ms : List Metric)
    (hnd : (o.globalLabels.map Prod.fst).Nodup) :
    ∀ m ∈ addGlobalLabels o ms,
      getL m.labels "hostname" = some o.hostname ∧
      ∀ k v, (k, v) ∈ o.globalLabels → k ≠ "hostname" →
        getL m.labels k = some v := by
  intro m hm
  unfold addGlobalLabels at hm
  rw [List.mem_map] at hm
  obtain ⟨m0, _, rfl⟩ := hm
  constructor
  · show getL (List.foldl _ _ _) "hostname" = _
    rw [foldl_globals_hostname]
    exact getL_setL_self _ _ _
  · intro k v hkv hk
    exact foldl_globals_mem _ _ _ _ hnd hkv hk

def c4orch : Orchestrator := ⟨"h1", [("env", "prod")]⟩

def c4batch : List Metric :=
  addGlobalLabels c4orch
    [{ name := "a", labels := [], value := 1, type := "gauge" },
     { name := "b", labels := [], value := 2, type := "gauge" }]

/-- C4 witness: with one source returning metrics a=1 and b=2, global
labels {env: prod} and hostname h1, both shipped metrics carry
hostname=h1 and env=prod. -/
theorem c4_witness :
    getL (c4batch.get ⟨0, by decide⟩).labels "hostname" = some "h1" ∧
    getL (c4batch.get ⟨0, by decide⟩).labels "env" = some "prod" ∧
    getL (c4batch.get ⟨1, by decide⟩).labels "hostname" = some "h1" ∧
    getL (c4batch.get ⟨1, by decide⟩).labels "env" = some "prod" := by
  have h0 := c4_shipped_labels c4orch
    [{ name := "a", labels := [], value := 1, type := "gauge" },
     { name := "b", labels := [], value := 2, type := "gauge" }] (by decide)
    (c4batch.get ⟨0, by decide⟩) (List.get_mem c4batch 0 (by decide))
  have h1 := c4_shipped_labels c4orch
    [{ name := "a", labels := [], value := 1, type := "gauge" },
     { name := "b", labels := [], value := 2, type := "gauge" }] (by decide)
    (c4batch.get ⟨1, by decide⟩) (List.get_mem c4batch 1 (by decide))
  exact ⟨h0.1, h0.2 "env" "prod" (by decide) (by decide),
         h1.1, h1.2 "env" "prod" (by decide) (by decide)⟩

/-! ## Claim C8: hostname override from the global-label map -/

/-- C8, counterexample: the claim as stated quantifies over every map
containing a `hostname` key, but a map whose `hostname` entry is the
empty string does not override the detected identity — the constructed
orchestrator keeps the auto-detected hostname instead of the map's
value. -/
theorem c8_counterexample :
    getL [("hostname", "")] "hostname" = some "" ∧
    (newOrchestratorWithLabels "auto" [("hostname", "")]).hostname ≠ "" := by
  decide

/-- C8 as amended: for every global-label map whose `hostname` entry is
non-empty, the constructed orchestrator adopts that value as its host
identity, and that value then appears as the `hostname` label on every
metric of an enriched batch. -/
theorem c8_hostname_override (detected : String) (gl : Labels) (h : String)
    (hh : getL gl "hostname" = some h) (hne : h ≠ "") :
    (newOrchestratorWithLabels detected gl).hostname = h ∧
    ∀ (ms : List Metric) m,
      m ∈ addGlobalLabels (newOrchestratorWithLabels detected gl) ms →
        getL m.labels "hostname" = some h := by
  have hmain : (newOrchestratorWithLabels detected gl).hostname = h := by
    unfold newOrchestratorWithLabels
    simp [hh, hne]
  refine ⟨hmain, ?_⟩
  intro ms m hm
  unfold addGlobalLabels at hm
  rw [List.mem_map] at hm
  obtain ⟨m0, _, rfl⟩ := hm
  show getL (List.foldl _ _ _) "hostname" = _
  rw [foldl_globals_hostname, getL_setL_self, hmain]

/-- C8 witness: global labels {hostname: h1} override detected hostname
auto, and the label lands on a shipped metric. -/
theorem c8_witness :
    (newOrchestratorWithLabels "auto" [("hostname", "h1")]).hostname = "h1" :=
  (c8_hostname_override "auto" [("hostname", "h1")] "h1" rfl (by decide)).1

/-! ## Claim C5: exposition-format parsing of the TYPE-classified line -/

/-- The two-line exposition body of claim C5. -/
def c5body : String :=
  "# TYPE http_requests counter\nhttp_requests\x7bmethod=\"GET\"\x7d 1027 1395066363000"

/-- C5: for every target name, parsing the body yields exactly one
metric named http_requests, counter-typed via the TYPE directive, with
value 1027 (the trailing timestamp ignored) and labels endpoint=target,
method=GET. -/
theorem c5_exposition_parse (t : String) :
    parsePrometheusMetrics t c5body =
      [{ name := "http_requests",
         labels := [("endpoint", t), ("method", "GET")],
         value := 1027, type := "counter" }] := by
  rfl

/-! ## Claim C7: regex-mode value parsing -/

/-- C7: in regex mode, `parseValue` errors whenever the pattern's
`FindStringSubmatch` yields fewer than two strings (no match, or a match
without a capture group), and otherwise parses the first capture group
(`matches[1]`) as a float; concretely, pattern `(\d+)` on
"rx=118273 bytes" yields 118273, and the capture-free pattern `\d+`
errors on the same input. -/
theorem c7_parse_value_regex :
    (∀ (re : GoRegexp) (raw rr : String),
        (re.findStringSubmatch raw).length < 2 →
        ∃ e, parseValue raw ⟨"regex", some re, rr, "regex"⟩ = .error e)
    ∧ (∀ (re : GoRegexp) (raw rr m0 m1 : String) (ms : List String),
        re.findStringSubmatch raw = m0 :: m1 :: ms →
        parseValue raw ⟨"regex", some re, rr, "regex"⟩ =
          match parseGoFloat m1 with
          | some v => .ok v
          | none => .error "capture is not a number")
    ∧ parseValue "rx=118273 bytes"
        ⟨"regex", some digitsCaptureRegexp, "(\\d+)", "regex"⟩ = .ok 118273
    ∧ (∃ e, parseValue "rx=118273 bytes"
        ⟨"regex", some digitsNoCaptureRegexp, "\\d+", "regex"⟩ = .error e) := by
  refine ⟨?_, ?_, ?_, ?_⟩
  · intro re raw rr hlen
    cases hfs : re.findStringSubmatch raw with
    | nil =>
        exact ⟨"regex did not match any capture group",
          by simp [parseValue, hfs]⟩
    | cons m0 tl =>
        cases tl with
        | nil =>
            exact ⟨"regex did not match any capture group",
              by simp [parseValue, hfs]⟩
        | cons m1 tl2 => rw [hfs] at hlen; simp at hlen; omega
  · intro re raw rr m0 m1 ms hfs
    simp [parseValue, hfs]
  · rfl
  · exact ⟨"regex did not match any capture group", rfl⟩

/-- C7 witness: a non-matching input under the capturing pattern is an
error (discharging the general clause's hypothesis at a concrete
input). -/
theorem c7_witness :
    ∃ e, parseValue "no digits here"
      ⟨"regex", some digitsCaptureRegexp, "(\\d+)", "regex"⟩ = .error e :=
  c7_parse_value_regex.1 digitsCaptureRegexp "no digits here" "(\\d+)"
    (by decide)

end Metricsd
